import Mathlib

/-!
Verification development for `nvidia_exporter.go` (fetep/nvidia_exporter).

The program launches `nvidia-smi` in streaming mode, reads its CSV-like
standard output line by line, and republishes the parsed per-device values
as Prometheus gauges.  This file shallowly embeds the data model and the
per-line processing of `scrapeSmi` and proves the specification's claims
about them.

Conventions of the embedding:
* Machine floats (`float64`) are abstracted: per-line processing is
  parameterised by an arbitrary parse function `parse : String → Option V`
  standing for `strconv.ParseFloat`; `parseDecimal : String → Option Decimal`
  is a concrete executable model of `ParseFloat` on plain unsigned decimal
  literals, used for concrete instances.
* The mutations performed by one loop iteration are recorded as an ordered
  trace of gauge writes (`Write`), together with the fatal error
  (`LineError`), if any, that terminates the process at the end of the
  trace.  `log.Fatalf` exits the process, so a fatal iteration still
  performs every write that precedes the failing statement.
* The Prometheus registry is modelled as `SmiState`: the single
  `nvidia_last_updated_time` gauge plus a map from (gauge name, label
  pairs) to the last written value.
-/

namespace NvidiaExporter

/-- One entry of the `stats` slice (`nvidia_exporter.go` lines 19-22):
the nvidia-smi query field name together with the Prometheus `GaugeVec`
options (`Name`, `Help`) and its label names. -/
structure NvidiaStat where
  name : String
  gaugeName : String
  gaugeHelp : String
  gaugeLabels : List String
deriving Repr, DecidableEq

/-- The fixed metric table (`nvidia_exporter.go` lines 27-70).  Every
`GaugeVec` is declared with the single label name `"gpu"`. -/
def stats : List NvidiaStat :=
  [ { name := "memory.used",
      gaugeName := "nvidia_memory_used_megabytes",
      gaugeHelp := "Total memory allocated by active contexts",
      gaugeLabels := ["gpu"] },
    { name := "memory.total",
      gaugeName := "nvidia_memory_total_megabytes",
      gaugeHelp := "Total installed GPU memory",
      gaugeLabels := ["gpu"] },
    { name := "utilization.gpu",
      gaugeName := "nvidia_gpu_utilization_percent",
      gaugeHelp := "Percent of time over the past sample period during which one or more kernels was executing on the GPU",
      gaugeLabels := ["gpu"] },
    { name := "utilization.memory",
      gaugeName := "nvidia_memory_utilization_percent",
      gaugeHelp := "Percent of time over the past sample period during which global (device) memory was being read or written",
      gaugeLabels := ["gpu"] },
    { name := "temperature.gpu",
      gaugeName := "nvidia_temperature_celsius",
      gaugeHelp := "Core GPU temperature",
      gaugeLabels := ["gpu"] },
    { name := "power.draw",
      gaugeName := "nvidia_power_draw_watts",
      gaugeHelp := "The last measured power draw for the entire board",
      gaugeLabels := ["gpu"] } ]

/-- Name of the plain (non-vector) gauge registered at the top of
`scrapeSmi` (lines 74-78). -/
def lastUpdatedGaugeName : String := "nvidia_last_updated_time"

/-- The `lastUpdated` gauge is created with `prometheus.NewGauge`, which
takes no label names: its label list is empty. -/
def lastUpdatedGaugeLabels : List String := []

/-! Interval handling (`scrapeSmi` lines 87-90)

`seconds := fmt.Sprintf("%.0f", interval.Seconds())` formats the interval
in seconds with zero digits after the decimal point; Go's `%.0f` rounds to
the nearest integer, ties to even.  The duration is modelled exactly as
its count of nanoseconds, and the formatted value as the rounded rational
`ns / 10^9`. -/

/-- Nanoseconds in one second (`time.Second`). -/
def nsPerSec : Nat := 1000000000

/-- The whole-second value printed by `fmt.Sprintf("%.0f", d.Seconds())`
for a nonnegative duration of `ns` nanoseconds: `ns / 10^9` rounded to the
nearest integer, ties to even. -/
def roundSecondsHalfEven (ns : Nat) : Nat :=
  let whole := ns / nsPerSec
  let rem := ns % nsPerSec
  if rem * 2 < nsPerSec then whole
  else if nsPerSec < rem * 2 then whole + 1
  else if whole % 2 = 0 then whole else whole + 1

/-- The string bound to `seconds` in `scrapeSmi` (line 87), later passed
as the `-l` argument of `nvidia-smi`. -/
def secondsArg (ns : Nat) : String := Nat.repr (roundSecondsHalfEven ns)

/-- Lines 88-90: if the formatted seconds string is `"0"` the process
dies with `log.Fatalf` before `exec.Command` is ever built; otherwise the
string is used as the `-l` argument. -/
def checkInterval (ns : Nat) : Except String String :=
  if secondsArg ns = "0" then Except.error ("interval must be at least 1 second")
  else Except.ok (secondsArg ns)

/-! Line splitting (`scrapeSmi` lines 106-110) -/

/-- Model of `line = line[:len(line)-1]` (line 106): drop the trailing
character (the newline returned by `ReadBytes`). -/
def stripNewline (s : String) : String := String.mk s.data.dropLast

/-- Whether a character list contains the two-character separator
`", "` (comma, space) as a contiguous sublist. -/
def containsSep : List Char → Bool
  | [] => false
  | [_] => false
  | c :: d :: rest => (c = ',' && d = ' ') || containsSep (d :: rest)

/-- Model of `strings.Split` with separator `", "` on character lists:
split around each
leftmost, non-overlapping occurrence of the two-character separator
`", "`.  The empty input yields one empty field, as in Go. -/
def splitCS : List Char → List (List Char)
  | [] => [[]]
  | [c] => [[c]]
  | c :: d :: rest =>
    if c = ',' ∧ d = ' ' then [] :: splitCS rest
    else (c :: (splitCS (d :: rest)).headD []) :: (splitCS (d :: rest)).tail

/-- Model of `data := strings.Split(string(line), ", ")` (line 110). -/
def splitFields (s : String) : List String := (splitCS s.data).map String.mk

/-- Join fields with the separator `", "`; the shape of a well-formed
nvidia-smi output line.  Used to state the split/join properties. -/
def joinSep : List (List Char) → List Char
  | [] => []
  | [f] => f
  | f :: rest => f ++ ',' :: ' ' :: joinSep rest

/-! Per-line processing (`scrapeSmi` lines 99-125) -/

/-- The fatal conditions a loop iteration can reach.  `invalidOutput`
models the `log.Fatalf` on a field-count mismatch (line 114, carrying the
stripped line), `convError` the `log.Fatalf` on a `strconv.ParseFloat`
failure (line 121, carrying the stat's query name and the raw field), and
`indexOutOfRange` a Go slice-bounds panic at the given index. -/
inductive LineError where
  | invalidOutput (line : String)
  | convError (statName : String) (raw : String)
  | indexOutOfRange (idx : Nat)
deriving Repr, DecidableEq

/-- One gauge mutation performed by the loop body, in program order:
either `lastUpdated.Set(t)` (line 104) or
`stat.metric.With(labels).Set(v)` (line 123) on the gauge named
`gaugeName` with the given label pairs. -/
inductive Write (V : Type) where
  | lastUpdated (t : Int)
  | stat (gaugeName : String) (labels : List (String × String)) (v : V)
deriving Repr, DecidableEq

/-- Outcome of one loop iteration: the ordered gauge writes it performed,
and the fatal error (if any) that terminates the process after them. -/
structure LineResult (V : Type) where
  writes : List (Write V)
  err : Option LineError
deriving Repr, DecidableEq

/-- The `for i, stat := range stats` loop (lines 118-124): for the `i`-th
stat, read `data[i+1]`, parse it, and on success set the stat's gauge for
label `{"gpu": gpu}`; a parse failure is fatal with the stat's query name
and the raw value; an out-of-range index is a panic. -/
def setLoop {V : Type} (parse : String → Option V) (gpu : String) (data : List String) :
    List NvidiaStat → Nat → List (Write V) → LineResult V
  | [], _, ws => { writes := ws, err := none }
  | st :: rest, i, ws =>
    match data.get? (i + 1) with
    | none => { writes := ws, err := some (LineError.indexOutOfRange (i + 1)) }
    | some raw =>
      match parse raw with
      | none => { writes := ws, err := some (LineError.convError st.name raw) }
      | some v =>
        setLoop parse gpu data rest (i + 1)
          (ws ++ [Write.stat st.gaugeName [("gpu", gpu)] v])

/-- One iteration of the read loop after a successful `ReadBytes` call
(lines 100-124): set `lastUpdated` to the current Unix time, strip the
trailing newline, split on `", "`, require `len(stats) + 1` fields (fatal
otherwise, reporting the stripped line), take `data[0]` as the device id
and run the per-stat loop. -/
def processLine {V : Type} (parse : String → Option V) (now : Int) (rawLine : String) :
    LineResult V :=
  let line := stripNewline rawLine
  let data := splitFields line
  let writes0 := [Write.lastUpdated now]
  if data.length ≠ stats.length + 1 then
    { writes := writes0, err := some (LineError.invalidOutput line) }
  else
    match data.get? 0 with
    | none => { writes := writes0, err := some (LineError.indexOutOfRange 0) }
    | some gpu => setLoop parse gpu data stats 0 writes0

/-- The device id of a line: its first `", "`-separated field
(`gpu := data[0]`, line 117). -/
def deviceOf (rawLine : String) : String :=
  (splitFields (stripNewline rawLine)).headD ""

/-! The registry state. -/

/-- The registry as seen through the program's gauges: the value of the
`nvidia_last_updated_time` gauge and, for each (gauge name, label pairs)
key, the last value written to that child gauge (`none` if it was never
written). -/
structure SmiState (V : Type) where
  lastUpdated : Option Int
  gauges : String → List (String × String) → Option V

/-- Registry state at process start: nothing written yet. -/
def initState {V : Type} : SmiState V :=
  { lastUpdated := none, gauges := fun _ _ => none }

/-- Effect of a single gauge write on the registry. -/
def applyWrite {V : Type} (st : SmiState V) : Write V → SmiState V
  | Write.lastUpdated t => { st with lastUpdated := some t }
  | Write.stat nm ls v =>
      { st with gauges := fun nm' ls' => if nm' = nm ∧ ls' = ls then some v else st.gauges nm' ls' }

/-- Effect of a write trace, applied in order. -/
def applyWrites {V : Type} (st : SmiState V) (ws : List (Write V)) : SmiState V :=
  ws.foldl applyWrite st

/-! A concrete model of `strconv.ParseFloat`

`parseDecimal` parses plain unsigned decimal literals (`"42"`,
`"120.5"`), exactly the shape nvidia-smi emits with
`--format=csv,noheader,nounits`, into exact decimal values; anything else
fails.  It is used to build concrete instances of the generic theorems,
which are parameterised over an arbitrary parse function. -/

/-- An exact decimal value `mantissa / 10 ^ scale`, kept unnormalised so
that all arithmetic stays inside `Nat` (e.g. `120.5` is
`⟨1205, 1⟩`). -/
structure Decimal where
  mantissa : Nat
  scale : Nat
deriving Repr, DecidableEq

/-- Numeric value of a decimal digit character. -/
def digitVal (c : Char) : Option Nat :=
  if c = '0' then some 0
  else if c = '1' then some 1
  else if c = '2' then some 2
  else if c = '3' then some 3
  else if c = '4' then some 4
  else if c = '5' then some 5
  else if c = '6' then some 6
  else if c = '7' then some 7
  else if c = '8' then some 8
  else if c = '9' then some 9
  else none

/-- Fold a digit list into a natural number; fails on a non-digit. -/
def natOfDigitsAux : List Char → Nat → Option Nat
  | [], acc => some acc
  | c :: cs, acc =>
    match digitVal c with
    | none => none
    | some d => natOfDigitsAux cs (acc * 10 + d)

/-- Split a character list at its first `'.'`, if any. -/
def splitFrac : List Char → List Char × Option (List Char)
  | [] => ([], none)
  | '.' :: rest => ([], some rest)
  | c :: rest =>
    let p := splitFrac rest
    (c :: p.1, p.2)

/-- Executable model of `strconv.ParseFloat` restricted to unsigned plain
decimal literals, producing exact decimal values. -/
def parseDecimal (s : String) : Option Decimal :=
  match splitFrac s.data with
  | (intPart, none) =>
    if intPart.isEmpty then none
    else (natOfDigitsAux intPart 0).map (fun n => { mantissa := n, scale := 0 })
  | (intPart, some fracPart) =>
    if intPart.isEmpty || fracPart.isEmpty then none
    else
      match natOfDigitsAux intPart 0, natOfDigitsAux fracPart 0 with
      | some a, some b =>
        some { mantissa := a * 10 ^ fracPart.length + b, scale := fracPart.length }
      | _, _ => none

end NvidiaExporter
namespace NvidiaExporter

theorem stripNewline_append (s : String) : stripNewline (s ++ "\n") = s := by
  cases s with
  | mk data => simp [stripNewline, String.data_append]

theorem splitCS_ne_nil (l : List Char) : splitCS l ≠ [] := by
  induction l using splitCS.induct with
  | case1 => simp [splitCS]
  | case2 c => simp [splitCS]
  | case3 c d rest h ih => simp [splitCS, h, ih]
  | case4 c d rest h ih => simp [splitCS, h]

theorem containsSep_cons_false {c d : Char} {rest : List Char}
    (h : containsSep (c :: d :: rest) = false) :
    ¬(c = ',' ∧ d = ' ') ∧ containsSep (d :: rest) = false := by
  simp [containsSep] at h
  constructor
  · intro hc
    simp [hc.1, hc.2] at h
  · tauto

theorem splitCS_no_sep {l : List Char} (h : containsSep l = false) : splitCS l = [l] := by
  induction l using splitCS.induct with
  | case1 => simp [splitCS]
  | case2 c => simp [splitCS]
  | case3 c d rest hcd ih => simp [containsSep, hcd.1, hcd.2] at h
  | case4 c d rest hcd ih =>
    have h2 := (containsSep_cons_false h).2
    simp [splitCS, hcd, ih h2]

theorem splitCS_append_sep {f : List Char} (t : List Char) (h : containsSep f = false) :
    splitCS (f ++ ',' :: ' ' :: t) = f :: splitCS t := by
  induction f with
  | nil => simp [splitCS]
  | cons c f' ih =>
    cases f' with
    | nil =>
      simp only [List.cons_append, List.nil_append]
      rw [show splitCS (c :: ',' :: ' ' :: t) =
        (c :: (splitCS (',' :: ' ' :: t)).headD []) :: (splitCS (',' :: ' ' :: t)).tail from by
          simp [splitCS]]
      simp [splitCS]
    | cons e f'' =>
      have hcd := (containsSep_cons_false h).1
      have h2 := (containsSep_cons_false h).2
      have ih2 := ih h2
      simp only [List.cons_append]
      rw [show splitCS (c :: e :: (f'' ++ ',' :: ' ' :: t)) =
        (c :: (splitCS (e :: (f'' ++ ',' :: ' ' :: t))).headD []) ::
          (splitCS (e :: (f'' ++ ',' :: ' ' :: t))).tail from by simp [splitCS, hcd]]
      rw [show (e :: (f'' ++ ',' :: ' ' :: t)) = ((e :: f'') ++ ',' :: ' ' :: t) from rfl]
      rw [ih2]
      simp

end NvidiaExporter
namespace NvidiaExporter

theorem splitCS_joinSep {fields : List (List Char)} (hne : fields ≠ [])
    (h : ∀ f ∈ fields, containsSep f = false) :
    splitCS (joinSep fields) = fields := by
  induction fields with
  | nil => exact absurd rfl hne
  | cons f rest ih =>
    cases rest with
    | nil => simpa [joinSep] using splitCS_no_sep (h f (by simp))
    | cons g rest' =>
      rw [show joinSep (f :: g :: rest') = f ++ ',' :: ' ' :: joinSep (g :: rest') from rfl]
      rw [splitCS_append_sep _ (h f (by simp))]
      rw [ih (by simp) (fun x hx => h x (by simp [hx]))]

theorem setLoop_writes_shape {V : Type} (parse : String → Option V) (gpu : String)
    (data : List String) :
    ∀ (defs : List NvidiaStat) (i : Nat) (ws : List (Write V)),
      ∃ tail, (setLoop parse gpu data defs i ws).writes = ws ++ tail ∧
        ∀ w ∈ tail, ∃ nm v, w = Write.stat nm [("gpu", gpu)] v := by
  intro defs
  induction defs with
  | nil =>
    intro i ws
    exact ⟨[], by simp [setLoop], by simp⟩
  | cons d rest ih =>
    intro i ws
    rcases hd : data[i + 1]? with _ | raw
    · exact ⟨[], by simp [setLoop, List.get?_eq_getElem?, hd], by simp⟩
    · rcases hp : parse raw with _ | v
      · exact ⟨[], by simp [setLoop, List.get?_eq_getElem?, hd, hp], by simp⟩
      · obtain ⟨tail, hw, hall⟩ := ih (i + 1) (ws ++ [Write.stat d.gaugeName [("gpu", gpu)] v])
        refine ⟨Write.stat d.gaugeName [("gpu", gpu)] v :: tail, ?_, ?_⟩
        · simp [setLoop, List.get?_eq_getElem?, hd, hp, hw]
        · intro w hw2
          rw [List.mem_cons] at hw2
          rcases hw2 with hw2 | hw2
          · exact ⟨d.gaugeName, v, by simp [hw2]⟩
          · exact hall w hw2

end NvidiaExporter
namespace NvidiaExporter

theorem processLine_writes_shape {V : Type} (parse : String → Option V) (now : Int)
    (rawLine : String) :
    ∃ tail, (processLine parse now rawLine).writes = Write.lastUpdated now :: tail ∧
      ∀ w ∈ tail, ∃ nm v, w = Write.stat nm [("gpu", deviceOf rawLine)] v := by
  unfold processLine
  by_cases hlen : (splitFields (stripNewline rawLine)).length ≠ stats.length + 1
  · exact ⟨[], by simp [hlen], by simp⟩
  · rcases hg : (splitFields (stripNewline rawLine))[0]? with _ | gpu
    · exact ⟨[], by simp [hlen, hg], by simp⟩
    · have hdev : deviceOf rawLine = gpu := by
        simp [deviceOf, List.headD_eq_head?, List.head?_eq_getElem?, hg]
      obtain ⟨tail, hw, hall⟩ := setLoop_writes_shape parse gpu
        (splitFields (stripNewline rawLine)) stats 0 [Write.lastUpdated now]
      refine ⟨tail, ?_, ?_⟩
      · simp [hlen, hg, hw]
      · intro w hw2
        rw [hdev]
        exact hall w hw2

end NvidiaExporter
namespace NvidiaExporter

theorem setLoop_no_oob {V : Type} (parse : String → Option V) (gpu : String)
    (data : List String) :
    ∀ (defs : List NvidiaStat) (i : Nat) (ws : List (Write V)),
      (∀ j, j < defs.length → i + 1 + j < data.length) →
      ∀ n, (setLoop parse gpu data defs i ws).err ≠ some (LineError.indexOutOfRange n) := by
  intro defs
  induction defs with
  | nil => intro i ws _ n; simp [setLoop]
  | cons d rest ih =>
    intro i ws hbound n
    have h0 : i + 1 < data.length := by
      have := hbound 0 (by simp)
      omega
    rcases hd : data[i + 1]? with _ | raw
    · rw [List.getElem?_eq_none_iff] at hd
      omega
    · rcases hp : parse raw with _ | v
      · simp [setLoop, hd, hp]
      · have : (setLoop parse gpu data (d :: rest) i ws) =
            setLoop parse gpu data rest (i + 1) (ws ++ [Write.stat d.gaugeName [("gpu", gpu)] v]) := by
          simp [setLoop, hd, hp]
        rw [this]
        exact ih (i + 1) _ (fun j hj => by have := hbound (j + 1) (by simpa using hj); omega) n

end NvidiaExporter
namespace NvidiaExporter

theorem setLoop_all_ok {V : Type} (parse : String → Option V) (gpu : String)
    (data : List String) :
    ∀ (defs : List NvidiaStat) (i : Nat) (ws : List (Write V))
      (raw : Nat → String) (v : Nat → V),
      (∀ j, j < defs.length → data[i + 1 + j]? = some (raw j) ∧ parse (raw j) = some (v j)) →
      setLoop parse gpu data defs i ws =
        { writes := ws ++ (List.range defs.length).map
            (fun j => Write.stat ((defs.map NvidiaStat.gaugeName).getD j "") [("gpu", gpu)] (v j)),
          err := none } := by
  intro defs
  induction defs with
  | nil => intro i ws raw v _; simp [setLoop]
  | cons d rest ih =>
    intro i ws raw v h
    have h0 := h 0 (by simp)
    have hd : data[i + 1]? = some (raw 0) := by simpa using h0.1
    have hp : parse (raw 0) = some (v 0) := h0.2
    have step : setLoop parse gpu data (d :: rest) i ws =
        setLoop parse gpu data rest (i + 1)
          (ws ++ [Write.stat d.gaugeName [("gpu", gpu)] (v 0)]) := by
      simp [setLoop, hd, hp]
    rw [step]
    rw [ih (i + 1) _ (fun j => raw (j + 1)) (fun j => v (j + 1))
      (fun j hj => by
        have := h (j + 1) (by simpa using hj)
        constructor
        · rw [show i + 1 + 1 + j = i + 1 + (j + 1) from by omega]
          exact this.1
        · exact this.2)]
    simp only [List.length_cons, List.range_succ_eq_map, List.map_cons, List.map_map]
    simp [Function.comp, List.append_assoc]

end NvidiaExporter
namespace NvidiaExporter

theorem setLoop_first_fail {V : Type} (parse : String → Option V) (gpu : String)
    (data : List String) :
    ∀ (defs : List NvidiaStat) (i : Nat) (ws : List (Write V))
      (raw : Nat → String) (v : Nat → V) (k : Nat),
      k < defs.length →
      (∀ j, j < k → data[i + 1 + j]? = some (raw j) ∧ parse (raw j) = some (v j)) →
      data[i + 1 + k]? = some (raw k) → parse (raw k) = none →
      setLoop parse gpu data defs i ws =
        { writes := ws ++ (List.range k).map
            (fun j => Write.stat ((defs.map NvidiaStat.gaugeName).getD j "") [("gpu", gpu)] (v j)),
          err := some (LineError.convError ((defs.map NvidiaStat.name).getD k "") (raw k)) } := by
  intro defs
  induction defs with
  | nil => intro i ws raw v k hk _ _ _; simp at hk
  | cons d rest ih =>
    intro i ws raw v k hk hpre hdk hpk
    cases k with
    | zero =>
      have hd : data[i + 1]? = some (raw 0) := by simpa using hdk
      simp [setLoop, hd, hpk]
    | succ k' =>
      have h0 := hpre 0 (by omega)
      have hd : data[i + 1]? = some (raw 0) := by simpa using h0.1
      have step : setLoop parse gpu data (d :: rest) i ws =
          setLoop parse gpu data rest (i + 1)
            (ws ++ [Write.stat d.gaugeName [("gpu", gpu)] (v 0)]) := by
        simp [setLoop, hd, h0.2]
      rw [step]
      rw [ih (i + 1) _ (fun j => raw (j + 1)) (fun j => v (j + 1)) k'
        (by simpa using hk)
        (fun j hj => by
          have := hpre (j + 1) (by omega)
          exact ⟨by rw [show i + 1 + 1 + j = i + 1 + (j + 1) from by omega]; exact this.1, this.2⟩)
        (by rw [show i + 1 + 1 + k' = i + 1 + (k' + 1) from by omega]; exact hdk)
        hpk]
      simp only [List.range_succ_eq_map, List.map_cons, List.map_map]
      simp [Function.comp, List.append_assoc]

end NvidiaExporter
namespace NvidiaExporter

theorem processLine_eq_setLoop {V : Type} (parse : String → Option V) (now : Int)
    (rawLine : String) (data : List String) (gpu : String)
    (hsplit : splitFields (stripNewline rawLine) = data)
    (hlen : data.length = stats.length + 1)
    (hg : data[0]? = some gpu) :
    processLine parse now rawLine = setLoop parse gpu data stats 0 [Write.lastUpdated now] := by
  unfold processLine
  simp only [hsplit]
  simp [List.get?_eq_getElem?, hlen, hg]

theorem applyWrites_cons {V : Type} (st : SmiState V) (w : Write V) (ws : List (Write V)) :
    applyWrites st (w :: ws) = applyWrites (applyWrite st w) ws := by
  simp [applyWrites]

theorem applyWrites_isSome_mono {V : Type} (nm : String) (ls : List (String × String)) :
    ∀ (ws : List (Write V)) (st : SmiState V),
      (st.gauges nm ls).isSome = true → ((applyWrites st ws).gauges nm ls).isSome = true := by
  intro ws
  induction ws with
  | nil => intro st h; simpa [applyWrites] using h
  | cons w rest ih =>
    intro st h
    rw [applyWrites_cons]
    apply ih
    cases w with
    | lastUpdated t => simpa [applyWrite] using h
    | stat nm' ls' v =>
      by_cases hkey : nm = nm' ∧ ls = ls'
      · simp [applyWrite, hkey]
      · simpa [applyWrite, hkey] using h

theorem applyWrites_untouched_key {V : Type} (nm : String) (ls : List (String × String)) :
    ∀ (ws : List (Write V)) (st : SmiState V),
      (∀ w ∈ ws, ∀ nm' ls' v, w = Write.stat nm' ls' v → ls' ≠ ls) →
      (applyWrites st ws).gauges nm ls = st.gauges nm ls := by
  intro ws
  induction ws with
  | nil => intro st _; simp [applyWrites]
  | cons w rest ih =>
    intro st h
    rw [applyWrites_cons]
    rw [ih _ (fun w hw => h w (by simp [hw]))]
    cases w with
    | lastUpdated t => simp [applyWrite]
    | stat nm' ls' v =>
      have hne : ls' ≠ ls := h _ (by simp) nm' ls' v rfl
      have hcond : ¬(nm = nm' ∧ ls = ls') := fun hc => hne hc.2.symm
      simp [applyWrite, hcond]

end NvidiaExporter
namespace NvidiaExporter

theorem applyWrites_snoc {V : Type} (st : SmiState V) (ws : List (Write V)) (w : Write V) :
    applyWrites st (ws ++ [w]) = applyWrite (applyWrites st ws) w := by
  simp [applyWrites]

theorem applyWrites_range_map {V : Type} (gname : Nat → String)
    (key : List (String × String)) (v : Nat → V) :
    ∀ (k : Nat) (st : SmiState V),
      (∀ j1 j2, j1 < k → j2 < k → gname j1 = gname j2 → j1 = j2) →
      ∀ j, j < k →
        (applyWrites st ((List.range k).map
          (fun j => Write.stat (gname j) key (v j)))).gauges (gname j) key = some (v j) := by
  intro k
  induction k with
  | zero => intro st _ j hj; omega
  | succ k' ih =>
    intro st hinj j hj
    rw [List.range_succ, List.map_append]
    simp only [List.map_cons, List.map_nil]
    rw [applyWrites_snoc]
    by_cases hjk : j = k'
    · simp [applyWrite, hjk]
    · have hjlt : j < k' := by omega
      have hne : gname j ≠ gname k' := by
        intro he
        exact hjk (hinj j k' (by omega) (by omega) he)
      simp only [applyWrite]
      rw [if_neg (fun hc => hne hc.1)]
      exact ih st (fun j1 j2 h1 h2 => hinj j1 j2 (by omega) (by omega)) j hjlt

end NvidiaExporter
namespace NvidiaExporter

theorem digitChar_ne_zero {n : Nat} (h1 : 1 ≤ n) (h2 : n ≤ 9) : Nat.digitChar n ≠ '0' := by
  interval_cases n <;> decide

theorem toDigitsCore_head :
    ∀ (fuel n : Nat) (acc : List Char), 1 ≤ n → n < fuel →
      ∃ c cs, Nat.toDigitsCore 10 fuel n acc = c :: cs ∧ c ≠ '0' := by
  intro fuel
  induction fuel with
  | zero => intro n acc h1 h2; omega
  | succ f ih =>
    intro n acc h1 h2
    by_cases hq : n / 10 = 0
    · have hn9 : n ≤ 9 := by omega
      refine ⟨Nat.digitChar (n % 10), acc, ?_, ?_⟩
      · simp [Nat.toDigitsCore, hq]
      · rw [Nat.mod_eq_of_lt (by omega)]
        exact digitChar_ne_zero h1 hn9
    · have h10 : 10 ≤ n := by omega
      have hlt : n / 10 < f := by
        have := Nat.div_lt_self (by omega : 0 < n) (by omega : 1 < 10)
        omega
      obtain ⟨c, cs, heq, hc⟩ := ih (n / 10) (Nat.digitChar (n % 10) :: acc) (by omega) hlt
      refine ⟨c, cs, ?_, hc⟩
      rw [show Nat.toDigitsCore 10 (f + 1) n acc =
        Nat.toDigitsCore 10 f (n / 10) (Nat.digitChar (n % 10) :: acc) from by
          simp [Nat.toDigitsCore, hq]]
      exact heq

theorem natRepr_eq_zero_iff (n : Nat) : Nat.repr n = "0" ↔ n = 0 := by
  constructor
  · intro h
    by_contra hn
    obtain ⟨c, cs, heq, hc⟩ := toDigitsCore_head (n + 1) n [] (by omega) (by omega)
    rw [Nat.repr, Nat.toDigits, heq] at h
    rw [List.asString] at h
    have : c :: cs = ['0'] := by
      have := congrArg String.data h
      simpa using this
    exact hc (by simp at this; exact this.1)
  · intro h
    rw [h]
    rfl

end NvidiaExporter
namespace NvidiaExporter

theorem applyWrites_lastUpdated_untouched {V : Type} :
    ∀ (ws : List (Write V)) (st : SmiState V),
      (∀ w ∈ ws, ∀ t : Int, w ≠ Write.lastUpdated t) →
      (applyWrites st ws).lastUpdated = st.lastUpdated := by
  intro ws
  induction ws with
  | nil => intro st _; simp [applyWrites]
  | cons w rest ih =>
    intro st h
    rw [applyWrites_cons, ih _ (fun w hw => h w (by simp [hw]))]
    cases w with
    | lastUpdated t => exact absurd rfl (h _ (by simp) t)
    | stat nm ls v => simp [applyWrite]

theorem processLine_invalid_eq {V : Type} (parse : String → Option V) (now : Int)
    (rawLine : String)
    (h : (splitFields (stripNewline rawLine)).length ≠ stats.length + 1) :
    processLine parse now rawLine =
      { writes := [Write.lastUpdated now],
        err := some (LineError.invalidOutput (stripNewline rawLine)) } := by
  unfold processLine
  simp [h]

/-- Claim C2: a line whose field count differs from the number of metrics
plus one is fatal: the per-line step reports the stripped line and
performs no gauge write besides the timestamp write, so extra fields are
never silently truncated and missing fields are never padded. -/
theorem processLine_field_count_fatal (V : Type) (parse : String → Option V) (now : Int)
    (rawLine : String)
    (h : (splitFields (stripNewline rawLine)).length ≠ stats.length + 1) :
    processLine parse now rawLine =
      { writes := [Write.lastUpdated now],
        err := some (LineError.invalidOutput (stripNewline rawLine)) } :=
  processLine_invalid_eq parse now rawLine h

theorem processLine_field_count_fatal_witness :
    processLine parseDecimal 100 ("1, 512, 8192, 10\n") =
      { writes := [Write.lastUpdated 100],
        err := some (LineError.invalidOutput ("1, 512, 8192, 10")) } :=
  processLine_field_count_fatal Decimal parseDecimal 100 ("1, 512, 8192, 10\n") (by decide)

theorem processLine_err_not_oob {V : Type} (parse : String → Option V) (now : Int)
    (rawLine : String) (n : Nat) :
    (processLine parse now rawLine).err ≠ some (LineError.indexOutOfRange n) := by
  by_cases hlen : (splitFields (stripNewline rawLine)).length = stats.length + 1
  · rcases hg : (splitFields (stripNewline rawLine))[0]? with _ | gpu
    · rw [List.getElem?_eq_none_iff] at hg
      rw [hlen] at hg
      simp [stats] at hg
    · rw [processLine_eq_setLoop parse now rawLine _ gpu rfl hlen hg]
      apply setLoop_no_oob
      intro j hj
      rw [hlen]
      simp [stats] at hj ⊢
      omega
  · rw [processLine_invalid_eq parse now rawLine hlen]
    simp

/-- Claim C8: per-line processing never performs an out-of-bounds index
into the split fields: for every input line (the empty line included),
the only fatal outcomes are the field-count error and the float-parse
error — a slice-bounds abort never occurs. -/
theorem processLine_no_oob (V : Type) (parse : String → Option V) (now : Int)
    (rawLine : String) :
    ∀ e : LineError, (processLine parse now rawLine).err = some e →
      (∃ line, e = LineError.invalidOutput line) ∨
      (∃ nm raw, e = LineError.convError nm raw) := by
  intro e he
  cases e with
  | invalidOutput line => exact Or.inl ⟨line, rfl⟩
  | convError nm raw => exact Or.inr ⟨nm, raw, rfl⟩
  | indexOutOfRange n => exact absurd he (processLine_err_not_oob parse now rawLine n)

theorem processLine_no_oob_witness :
    (∃ line, LineError.invalidOutput ("") = LineError.invalidOutput line) ∨
    (∃ nm raw, LineError.invalidOutput ("") = LineError.convError nm raw) :=
  processLine_no_oob Decimal parseDecimal 100 ("\n")
    (LineError.invalidOutput ("")) (by decide)

end NvidiaExporter
namespace NvidiaExporter

/-- Claim C4 (counterexample): on the spec's own short line
`"1, 512, 8192, 10"` the parse fails, yet the `nvidia_last_updated_time`
gauge is still set to the current time — the timestamp update is not
conditional on a successful parse. -/
theorem lastUpdated_set_on_failed_parse :
    (processLine parseDecimal 100 ("1, 512, 8192, 10\n")).err.isSome = true ∧
    (applyWrites (initState (V := Decimal))
      (processLine parseDecimal 100 ("1, 512, 8192, 10\n")).writes).lastUpdated = some 100 ∧
    (initState (V := Decimal)).lastUpdated ≠ some 100 := by
  decide

/-- Claim C4 (amended): the `nvidia_last_updated_time` gauge is set to
the current Unix time on every line read — the write happens first,
before field-count validation and float parsing, hence also on lines
whose parse then fails — and it is the only timestamp write, so it
precedes every per-metric gauge update. -/
theorem lastUpdated_always_set_first (V : Type) (parse : String → Option V) (now : Int)
    (rawLine : String) :
    (∃ tail, (processLine parse now rawLine).writes = Write.lastUpdated now :: tail ∧
      ∀ w ∈ tail, ∀ t : Int, w ≠ Write.lastUpdated t) ∧
    ∀ st : SmiState V,
      (applyWrites st (processLine parse now rawLine).writes).lastUpdated = some now := by
  obtain ⟨tail, hw, hall⟩ := processLine_writes_shape parse now rawLine
  have hnl : ∀ w ∈ tail, ∀ t : Int, w ≠ Write.lastUpdated t := by
    intro w hw2 t
    obtain ⟨nm, v, rfl⟩ := hall w hw2
    simp
  refine ⟨⟨tail, hw, hnl⟩, ?_⟩
  intro st
  rw [hw, applyWrites_cons, applyWrites_lastUpdated_untouched tail _ hnl]
  simp [applyWrite]

theorem lastUpdated_always_set_first_witness :
    (applyWrites (initState (V := Decimal))
      (processLine parseDecimal 100 ("1, 512, 8192, 10\n")).writes).lastUpdated = some 100 :=
  (lastUpdated_always_set_first Decimal parseDecimal 100 ("1, 512, 8192, 10\n")).2 initState

/-- Claim C7: the sampler's line handling is an exact trailing-terminator
strip followed by a plain substring split on `", "`: stripping undoes
appending a newline; splitting is a left inverse of joining
separator-free fields; and a `", "` embedded in field text is split at,
exactly like a real separator. -/
theorem split_is_naive_substring_split :
    (∀ s : String, stripNewline (s ++ "\n") = s) ∧
    (∀ fields : List (List Char), fields ≠ [] →
      (∀ f ∈ fields, containsSep f = false) →
      splitCS (joinSep fields) = fields) ∧
    (∀ f t : List Char, containsSep f = false →
      splitCS (f ++ ',' :: ' ' :: t) = f :: splitCS t) :=
  ⟨stripNewline_append,
   fun _ hne h => splitCS_joinSep hne h,
   fun _ t h => splitCS_append_sep t h⟩

theorem split_is_naive_substring_split_witness :
    stripNewline ("0, 1024" ++ "\n") = "0, 1024" ∧
    splitCS (joinSep [['a'], ['b', ',', 'c']]) = [['a'], ['b', ',', 'c']] ∧
    splitCS (['x'] ++ ',' :: ' ' :: ['y']) = ['x'] :: splitCS ['y'] :=
  ⟨split_is_naive_substring_split.1 "0, 1024",
   split_is_naive_substring_split.2.1 [['a'], ['b', ',', 'c']] (by decide) (by decide),
   split_is_naive_substring_split.2.2 ['x'] ['y'] (by decide)⟩

end NvidiaExporter
namespace NvidiaExporter

/-- Claim C5 (counterexample): the seconds argument is not the interval
truncated to whole seconds: a 1.5 s interval truncates to 1 but the
program formats it with `%.0f`, which rounds, and passes `"2"`. -/
theorem secondsArg_not_truncation :
    secondsArg 1500000000 = "2" ∧
    Nat.repr (1500000000 / nsPerSec) = "1" ∧
    secondsArg 1500000000 ≠ Nat.repr (1500000000 / nsPerSec) := by
  decide

/-- Claim C5 (amended): the seconds argument passed to the subprocess is
the interval in seconds rounded to the nearest whole number (ties to
even, Go's `%.0f`); the process reports a fatal configuration error
before any subprocess is spawned exactly when that rounded value is 0
(e.g. an interval of 0.4 seconds), and otherwise proceeds with the
rounded value as the argument. -/
theorem checkInterval_spec (ns : Nat) :
    (checkInterval ns = Except.error ("interval must be at least 1 second") ↔
      roundSecondsHalfEven ns = 0) ∧
    (roundSecondsHalfEven ns ≠ 0 →
      checkInterval ns = Except.ok (Nat.repr (roundSecondsHalfEven ns))) := by
  unfold checkInterval secondsArg
  by_cases h : Nat.repr (roundSecondsHalfEven ns) = "0"
  · rw [if_pos h]
    constructor
    · simp [← natRepr_eq_zero_iff, h]
    · intro hne
      exact absurd ((natRepr_eq_zero_iff _).1 h) hne
  · rw [if_neg h]
    constructor
    · constructor
      · intro hc
        cases hc
      · intro h0
        exact absurd ((natRepr_eq_zero_iff _).2 h0) h
    · intro _
      rfl

theorem checkInterval_spec_witness :
    checkInterval 2000000000 = Except.ok (Nat.repr (roundSecondsHalfEven 2000000000)) ∧
    checkInterval 400000000 = Except.error ("interval must be at least 1 second") :=
  ⟨(checkInterval_spec 2000000000).2 (by decide),
   (checkInterval_spec 400000000).1.2 (by decide)⟩

end NvidiaExporter
namespace NvidiaExporter

/-- Claim C1: a well-formed line of exactly `stats.length + 1` fields
whose metric fields all parse takes the first field as the device id,
parses the remaining fields in the fixed query order, and sets each
metric's gauge for that device id to the corresponding parsed value
(after the timestamp write). -/
theorem processLine_well_formed (V : Type) (parse : String → Option V) (now : Int)
    (rawLine gpu f0 f1 f2 f3 f4 f5 : String) (v0 v1 v2 v3 v4 v5 : V)
    (hsplit : splitFields (stripNewline rawLine) = [gpu, f0, f1, f2, f3, f4, f5])
    (h0 : parse f0 = some v0) (h1 : parse f1 = some v1) (h2 : parse f2 = some v2)
    (h3 : parse f3 = some v3) (h4 : parse f4 = some v4) (h5 : parse f5 = some v5) :
    processLine parse now rawLine =
      { writes := [Write.lastUpdated now,
          Write.stat "nvidia_memory_used_megabytes" [("gpu", gpu)] v0,
          Write.stat "nvidia_memory_total_megabytes" [("gpu", gpu)] v1,
          Write.stat "nvidia_gpu_utilization_percent" [("gpu", gpu)] v2,
          Write.stat "nvidia_memory_utilization_percent" [("gpu", gpu)] v3,
          Write.stat "nvidia_temperature_celsius" [("gpu", gpu)] v4,
          Write.stat "nvidia_power_draw_watts" [("gpu", gpu)] v5],
        err := none } ∧
    ∀ st : SmiState V,
      (applyWrites st (processLine parse now rawLine).writes).lastUpdated = some now ∧
      (applyWrites st (processLine parse now rawLine).writes).gauges
        "nvidia_memory_used_megabytes" [("gpu", gpu)] = some v0 ∧
      (applyWrites st (processLine parse now rawLine).writes).gauges
        "nvidia_memory_total_megabytes" [("gpu", gpu)] = some v1 ∧
      (applyWrites st (processLine parse now rawLine).writes).gauges
        "nvidia_gpu_utilization_percent" [("gpu", gpu)] = some v2 ∧
      (applyWrites st (processLine parse now rawLine).writes).gauges
        "nvidia_memory_utilization_percent" [("gpu", gpu)] = some v3 ∧
      (applyWrites st (processLine parse now rawLine).writes).gauges
        "nvidia_temperature_celsius" [("gpu", gpu)] = some v4 ∧
      (applyWrites st (processLine parse now rawLine).writes).gauges
        "nvidia_power_draw_watts" [("gpu", gpu)] = some v5 := by
  have htr : processLine parse now rawLine =
      { writes := [Write.lastUpdated now,
          Write.stat "nvidia_memory_used_megabytes" [("gpu", gpu)] v0,
          Write.stat "nvidia_memory_total_megabytes" [("gpu", gpu)] v1,
          Write.stat "nvidia_gpu_utilization_percent" [("gpu", gpu)] v2,
          Write.stat "nvidia_memory_utilization_percent" [("gpu", gpu)] v3,
          Write.stat "nvidia_temperature_celsius" [("gpu", gpu)] v4,
          Write.stat "nvidia_power_draw_watts" [("gpu", gpu)] v5],
        err := none } := by
    rw [processLine_eq_setLoop parse now rawLine [gpu, f0, f1, f2, f3, f4, f5] gpu hsplit
      (by simp [stats]) (by simp)]
    rw [setLoop_all_ok parse gpu [gpu, f0, f1, f2, f3, f4, f5] stats 0 [Write.lastUpdated now]
      (fun j => [f0, f1, f2, f3, f4, f5].getD j "")
      (fun j => [v0, v1, v2, v3, v4, v5].getD j v0)
      (by
        intro j hj
        simp only [stats, List.length_cons, List.length_nil] at hj
        interval_cases j <;>
          simp [h0, h1, h2, h3, h4, h5])]
    simp [stats, List.range_succ]
  refine ⟨htr, ?_⟩
  intro st
  rw [htr]
  simp [applyWrites, applyWrite]

end NvidiaExporter
namespace NvidiaExporter

theorem processLine_well_formed_witness :
    (processLine parseDecimal 100 ("0, 1024, 8192, 15, 3, 42, 120.5\n")).err = none ∧
    (applyWrites (initState (V := Decimal))
      (processLine parseDecimal 100 ("0, 1024, 8192, 15, 3, 42, 120.5\n")).writes).lastUpdated =
        some 100 ∧
    (applyWrites (initState (V := Decimal))
      (processLine parseDecimal 100 ("0, 1024, 8192, 15, 3, 42, 120.5\n")).writes).gauges
        "nvidia_memory_used_megabytes" [("gpu", "0")] = some { mantissa := 1024, scale := 0 } ∧
    (applyWrites (initState (V := Decimal))
      (processLine parseDecimal 100 ("0, 1024, 8192, 15, 3, 42, 120.5\n")).writes).gauges
        "nvidia_power_draw_watts" [("gpu", "0")] = some { mantissa := 1205, scale := 1 } := by
  have h := processLine_well_formed Decimal parseDecimal 100
    ("0, 1024, 8192, 15, 3, 42, 120.5\n") "0" "1024" "8192" "15" "3" "42" "120.5"
    { mantissa := 1024, scale := 0 } { mantissa := 8192, scale := 0 }
    { mantissa := 15, scale := 0 } { mantissa := 3, scale := 0 }
    { mantissa := 42, scale := 0 } { mantissa := 1205, scale := 1 }
    (by decide) (by decide) (by decide) (by decide) (by decide) (by decide) (by decide)
  have h2 := h.2 initState
  exact ⟨by rw [h.1], h2.1, h2.2.1, h2.2.2.2.2.2.2⟩

end NvidiaExporter
namespace NvidiaExporter

theorem gnameInj : ∀ j1, j1 < 6 → ∀ j2, j2 < 6 →
    (stats.map NvidiaStat.gaugeName).getD j1 "" = (stats.map NvidiaStat.gaugeName).getD j2 "" →
    j1 = j2 := by
  decide

theorem processLine_first_fail_trace {V : Type} (parse : String → Option V) (now : Int)
    (rawLine gpu f0 f1 f2 f3 f4 f5 : String) (k : Fin 6) (v : Fin 6 → V)
    (hsplit : splitFields (stripNewline rawLine) = [gpu, f0, f1, f2, f3, f4, f5])
    (hpre : ∀ j : Fin 6, j < k → parse ([f0, f1, f2, f3, f4, f5].get j) = some (v j))
    (hfail : parse ([f0, f1, f2, f3, f4, f5].get k) = none) :
    processLine parse now rawLine =
      { writes := Write.lastUpdated now :: (List.range k.1).map
          (fun j => Write.stat ((stats.map NvidiaStat.gaugeName).getD j "") [("gpu", gpu)]
            (v ⟨j % 6, Nat.mod_lt j (by omega)⟩)),
        err := some (LineError.convError ((stats.map NvidiaStat.name).getD k.1 "")
          ([f0, f1, f2, f3, f4, f5].get k)) } := by
  have hidx : ∀ j, j < 6 →
      ([gpu, f0, f1, f2, f3, f4, f5] : List String)[0 + 1 + j]? =
        some (([f0, f1, f2, f3, f4, f5] : List String).getD j "") := by
    intro j hj
    interval_cases j <;> rfl
  have hget : ∀ (j : Nat) (hj : j < 6),
      ([f0, f1, f2, f3, f4, f5] : List String).getD j "" =
        ([f0, f1, f2, f3, f4, f5] : List String).get ⟨j, hj⟩ := by
    intro j hj
    interval_cases j <;> rfl
  have hvv : ∀ (j : Nat) (hj : j < 6),
      v ⟨j % 6, Nat.mod_lt j (by omega)⟩ = v ⟨j, hj⟩ := by
    intro j hj
    congr 1
    exact Fin.ext (Nat.mod_eq_of_lt hj)
  rw [processLine_eq_setLoop parse now rawLine [gpu, f0, f1, f2, f3, f4, f5] gpu hsplit
    (by simp [stats]) (by simp)]
  rw [setLoop_first_fail parse gpu [gpu, f0, f1, f2, f3, f4, f5] stats 0 [Write.lastUpdated now]
    (fun j => ([f0, f1, f2, f3, f4, f5] : List String).getD j "")
    (fun j => v ⟨j % 6, Nat.mod_lt j (by omega)⟩)
    k.1
    (by simp [stats])
    (fun j hj => by
      have hj6 : j < 6 := by have := k.isLt; omega
      refine ⟨hidx j hj6, ?_⟩
      show parse (([f0, f1, f2, f3, f4, f5] : List String).getD j "") =
        some (v ⟨j % 6, Nat.mod_lt j (by omega)⟩)
      rw [hget j hj6, hvv j hj6]
      exact hpre ⟨j, hj6⟩ hj)
    (by
      show ([gpu, f0, f1, f2, f3, f4, f5] : List String)[0 + 1 + k.1]? =
        some (([f0, f1, f2, f3, f4, f5] : List String).getD k.1 "")
      exact hidx k.1 k.isLt)
    (by
      show parse (([f0, f1, f2, f3, f4, f5] : List String).getD k.1 "") = none
      rw [hget k.1 k.isLt]
      simpa [Fin.eta] using hfail)]
  simp [hvv]

end NvidiaExporter
namespace NvidiaExporter

/-- Claim C3: a line whose k-th metric field fails float parsing is
fatal: the error reports the stat's query-field name and the raw value,
only the k earlier metric writes (plus the timestamp write) were
performed, and the failing metric's gauge is never written — the value is
not coerced to zero, skipped, or dropped. -/
theorem processLine_parse_failure_fatal (V : Type) (parse : String → Option V) (now : Int)
    (rawLine gpu f0 f1 f2 f3 f4 f5 : String) (k : Fin 6) (v : Fin 6 → V)
    (hsplit : splitFields (stripNewline rawLine) = [gpu, f0, f1, f2, f3, f4, f5])
    (hpre : ∀ j : Fin 6, j < k → parse ([f0, f1, f2, f3, f4, f5].get j) = some (v j))
    (hfail : parse ([f0, f1, f2, f3, f4, f5].get k) = none) :
    (processLine parse now rawLine).err =
      some (LineError.convError ((stats.map NvidiaStat.name).getD k.1 "")
        ([f0, f1, f2, f3, f4, f5].get k)) ∧
    (processLine parse now rawLine).writes.length = k.1 + 1 ∧
    ∀ ls w, Write.stat ((stats.map NvidiaStat.gaugeName).getD k.1 "") ls w ∉
      (processLine parse now rawLine).writes := by
  rw [processLine_first_fail_trace parse now rawLine gpu f0 f1 f2 f3 f4 f5 k v hsplit hpre hfail]
  refine ⟨rfl, by simp, ?_⟩
  intro ls w hmem
  simp only [List.mem_cons, List.mem_map, List.mem_range] at hmem
  rcases hmem with hmem | ⟨j, hj, heq⟩
  · cases hmem
  · have hgn : (stats.map NvidiaStat.gaugeName).getD j "" =
        (stats.map NvidiaStat.gaugeName).getD k.1 "" := by
      have := congrArg (fun w => match w with
        | Write.stat nm _ _ => nm
        | Write.lastUpdated _ => "") heq
      simpa using this
    have : j = k.1 := gnameInj j (by have := k.isLt; omega) k.1 k.isLt hgn
    omega

theorem processLine_parse_failure_fatal_witness :
    (processLine parseDecimal 100 ("0, abc, 8192, 15, 3, 42, 120.5\n")).err =
      some (LineError.convError ("memory.used") ("abc")) ∧
    (processLine parseDecimal 100 ("0, abc, 8192, 15, 3, 42, 120.5\n")).writes.length = 1 := by
  have h := processLine_parse_failure_fatal Decimal parseDecimal 100
    ("0, abc, 8192, 15, 3, 42, 120.5\n") "0" "abc" "8192" "15" "3" "42" "120.5"
    ⟨0, by omega⟩ (fun _ => { mantissa := 0, scale := 0 })
    (by decide) (by decide) (by decide)
  exact ⟨h.1, h.2.1⟩

/-- Claim C9: when float parsing fails at the k-th metric field, the
gauges of the earlier metric fields of that line have already been set to
the line's new values before the process terminates — a failing line's
updates are not atomic. -/
theorem processLine_prior_updates_persist (V : Type) (parse : String → Option V) (now : Int)
    (rawLine gpu f0 f1 f2 f3 f4 f5 : String) (k : Fin 6) (v : Fin 6 → V)
    (hsplit : splitFields (stripNewline rawLine) = [gpu, f0, f1, f2, f3, f4, f5])
    (hpre : ∀ j : Fin 6, j < k → parse ([f0, f1, f2, f3, f4, f5].get j) = some (v j))
    (hfail : parse ([f0, f1, f2, f3, f4, f5].get k) = none) :
    ∀ (st : SmiState V) (j : Fin 6), j < k →
      (applyWrites st (processLine parse now rawLine).writes).gauges
        ((stats.map NvidiaStat.gaugeName).getD j.1 "") [("gpu", gpu)] = some (v j) := by
  intro st j hj
  rw [processLine_first_fail_trace parse now rawLine gpu f0 f1 f2 f3 f4 f5 k v hsplit hpre hfail]
  rw [applyWrites_cons]
  have hres := applyWrites_range_map
    (fun j => (stats.map NvidiaStat.gaugeName).getD j "")
    [("gpu", gpu)]
    (fun j => v ⟨j % 6, Nat.mod_lt j (by omega)⟩)
    k.1
    (applyWrite st (Write.lastUpdated now))
    (fun j1 j2 h1 h2 he =>
      gnameInj j1 (by have := k.isLt; omega) j2 (by have := k.isLt; omega) he)
    j.1 hj
  rw [hres]
  have hvj : v ⟨j.1 % 6, Nat.mod_lt j.1 (by omega)⟩ = v j := by
    congr 1
    exact Fin.ext (by simp [Nat.mod_eq_of_lt j.isLt])
  exact congrArg some hvj

theorem processLine_prior_updates_persist_witness :
    (applyWrites (initState (V := Decimal))
      (processLine parseDecimal 100 ("0, 1024, 8192, xx, 3, 42, 120.5\n")).writes).gauges
        "nvidia_memory_used_megabytes" [("gpu", "0")] = some { mantissa := 1024, scale := 0 } ∧
    (applyWrites (initState (V := Decimal))
      (processLine parseDecimal 100 ("0, 1024, 8192, xx, 3, 42, 120.5\n")).writes).gauges
        "nvidia_memory_total_megabytes" [("gpu", "0")] = some { mantissa := 8192, scale := 0 } := by
  have h := processLine_prior_updates_persist Decimal parseDecimal 100
    ("0, 1024, 8192, xx, 3, 42, 120.5\n") "0" "1024" "8192" "xx" "3" "42" "120.5"
    ⟨2, by omega⟩
    (fun j => if j.1 = 0 then { mantissa := 1024, scale := 0 } else { mantissa := 8192, scale := 0 })
    (by decide) (by decide) (by decide)
  exact ⟨h initState ⟨0, by omega⟩ (by decide), h initState ⟨1, by omega⟩ (by decide)⟩

end NvidiaExporter
namespace NvidiaExporter

/-- Claim C6 (counterexample): every per-device gauge is declared and
written with the label name `"gpu"`, not `"device"`: no stat's label set
is `["device"]`, and a concrete processed line writes its gauges under
the label pair `("gpu", "0")`. -/
theorem gauge_label_name_is_gpu_not_device :
    (stats.map (fun s => s.gaugeLabels)) = List.replicate 6 ["gpu"] ∧
    (∀ s ∈ stats, s.gaugeLabels ≠ ["device"]) ∧
    Write.stat ("nvidia_memory_used_megabytes") [("gpu", "0")]
        { mantissa := 1024, scale := 0 } ∈
      (processLine parseDecimal 100 ("0, 1024, 8192, 15, 3, 42, 120.5\n")).writes := by
  decide

/-- Claim C6 (amended): every per-device gauge is registered and written
with the single label name `"gpu"`, whose value is the device id taken
from the line's first field; only the last-updated gauge is unlabeled. -/
theorem gauge_labels_single_gpu (V : Type) :
    stats.map (fun s => s.gaugeLabels) = List.replicate 6 ["gpu"] ∧
    lastUpdatedGaugeLabels = [] ∧
    ∀ (parse : String → Option V) (now : Int) (rawLine : String),
      ∀ w ∈ (processLine parse now rawLine).writes,
        (∃ t, w = Write.lastUpdated t) ∨
        (∃ nm val, w = Write.stat nm [("gpu", deviceOf rawLine)] val) := by
  refine ⟨by decide, rfl, ?_⟩
  intro parse now rawLine w hw
  obtain ⟨tail, htr, hall⟩ := processLine_writes_shape parse now rawLine
  rw [htr, List.mem_cons] at hw
  rcases hw with hw | hw
  · exact Or.inl ⟨now, hw⟩
  · exact Or.inr (hall w hw)

theorem gauge_labels_single_gpu_witness :
    (∃ t, Write.stat ("nvidia_memory_used_megabytes") [("gpu", "0")]
        ({ mantissa := 1024, scale := 0 } : Decimal) = Write.lastUpdated t) ∨
    (∃ nm val, Write.stat ("nvidia_memory_used_megabytes") [("gpu", "0")]
        ({ mantissa := 1024, scale := 0 } : Decimal) =
      Write.stat nm [("gpu", deviceOf ("0, 1024, 8192, 15, 3, 42, 120.5\n"))] val) :=
  (gauge_labels_single_gpu Decimal).2.2 parseDecimal 100
    ("0, 1024, 8192, 15, 3, 42, 120.5\n") _ (by decide)

/-- Claim C10: a gauge value, once created, is never deleted — applying
any write trace keeps every populated (gauge, label) key populated — and
one processed line only ever writes per-device gauges under the device id
named in its first field, leaving every other device's pairs untouched. -/
theorem gauges_never_deleted (V : Type) :
    (∀ (st : SmiState V) (ws : List (Write V)) (nm : String) (ls : List (String × String)),
      (st.gauges nm ls).isSome = true →
      ((applyWrites st ws).gauges nm ls).isSome = true) ∧
    (∀ (parse : String → Option V) (now : Int) (rawLine : String) (st : SmiState V)
      (nm : String) (ls : List (String × String)),
      ls ≠ [("gpu", deviceOf rawLine)] →
      (applyWrites st (processLine parse now rawLine).writes).gauges nm ls =
        st.gauges nm ls) := by
  constructor
  · intro st ws nm ls h
    exact applyWrites_isSome_mono nm ls ws st h
  · intro parse now rawLine st nm ls hne
    obtain ⟨tail, htr, hall⟩ := processLine_writes_shape parse now rawLine
    rw [htr]
    apply applyWrites_untouched_key
    intro w hw nm' ls' v hws
    rw [List.mem_cons] at hw
    rcases hw with hw | hw
    · rw [hw] at hws
      cases hws
    · obtain ⟨nm2, v2, rfl⟩ := hall w hw
      cases hws
      exact fun hc => hne hc.symm

end NvidiaExporter
namespace NvidiaExporter

theorem gauges_never_deleted_witness :
    ((applyWrites
        (applyWrites (initState (V := Decimal))
          [Write.stat ("nvidia_memory_used_megabytes") [("gpu", "0")]
            { mantissa := 1, scale := 0 }])
        [Write.stat ("nvidia_memory_used_megabytes") [("gpu", "1")]
          { mantissa := 2, scale := 0 }]).gauges
      ("nvidia_memory_used_megabytes") [("gpu", "0")]).isSome = true ∧
    (applyWrites (initState (V := Decimal))
      (processLine parseDecimal 100 ("0, 1024, 8192, 15, 3, 42, 120.5\n")).writes).gauges
        ("nvidia_memory_used_megabytes") [("gpu", "7")] =
      (initState (V := Decimal)).gauges ("nvidia_memory_used_megabytes") [("gpu", "7")] :=
  ⟨(gauges_never_deleted Decimal).1 _ _ ("nvidia_memory_used_megabytes") [("gpu", "0")]
    (by decide),
   (gauges_never_deleted Decimal).2 parseDecimal 100
    ("0, 1024, 8192, 15, 3, 42, 120.5\n") initState ("nvidia_memory_used_megabytes")
    [("gpu", "7")] (by decide)⟩

end NvidiaExporter
